import Mathlib

/-!
Shallow embedding of the model-training pipeline in
src/SpaceX_Machine_Learning_Prediction_Part_5.py.

Feature matrices are lists of rows of rationals; the binary landing label
(the Class column) is a Bool (true = landed).  Library numeric primitives
that are not rational-computable (the square root inside StandardScaler,
the logarithm inside log_loss) are passed as explicit function parameters;
the seeded stratified shuffle inside train_test_split is passed as a
function parameter constrained, where a claim needs it, by the library
guarantee that it permutes the index range.
-/

namespace SpaceXML

/-- Data-loading section (lines 232-239): read the label table
(dataset_part_2.csv, giving the Class vector) and the feature table
(dataset_part_3.csv).  A missing file raises FileNotFoundError, caught and
answered by sys.exit 1; otherwise the two tables are returned as loaded,
with no further validation. -/
def loadData (labelTab : Option (List Bool)) (featTab : Option (List (List ℚ))) :
    Except Nat (List (List ℚ) × List Bool) :=
  match labelTab, featTab with
  | some d, some x => .ok (x, d)
  | none, _ => .error 1
  | _, none => .error 1

/-- Column j of a feature matrix (missing entries read as 0; actual inputs
are rectangular). -/
def colOf (X : List (List ℚ)) (j : Nat) : List ℚ :=
  X.map (fun r => r.getD j 0)

/-- Per-column mean, as fit by StandardScaler on the whole matrix (line 254). -/
def colMean (X : List (List ℚ)) (j : Nat) : ℚ :=
  (colOf X j).sum / (X.length : ℚ)

/-- Per-column population variance, as fit by StandardScaler. -/
def colVar (X : List (List ℚ)) (j : Nat) : ℚ :=
  ((colOf X j).map (fun v => (v - colMean X j) ^ 2)).sum / (X.length : ℚ)

/-- Per-column scale: square root of the variance, with zero variance mapped
to scale 1 exactly as sklearn handles constant columns.  The square root is
the sqrtFn parameter, since it is not rational-computable. -/
def scaleOf (sqrtFn : ℚ → ℚ) (X : List (List ℚ)) (j : Nat) : ℚ :=
  if colVar X j = 0 then 1 else sqrtFn (colVar X j)

/-- Transform one row with the centering and scaling parameters fit on the
matrix X (the whole matrix at line 254, never a partition). -/
def transformRow (sqrtFn : ℚ → ℚ) (X : List (List ℚ)) (r : List ℚ) : List ℚ :=
  (List.range r.length).map (fun j => (r.getD j 0 - colMean X j) / scaleOf sqrtFn X j)

/-- StandardScaler.fit_transform on the entire feature matrix (line 254):
every row is transformed with the parameters fit on the whole of X. -/
def standardize (sqrtFn : ℚ → ℚ) (X : List (List ℚ)) : List (List ℚ) :=
  X.map (transformRow sqrtFn X)

/-- Test-partition size for test_size 0.2: the ceiling of n / 5, per the
split implementation. -/
def nTestOf (n : Nat) : Nat := (n + 4) / 5

/-- Select the rows of X at the given index list. -/
def selectRows {α : Type} (X : List α) (idx : List Nat) : List α :=
  idx.filterMap (fun i => X[i]?)

/-- Test indices: the first nTestOf n entries of the shuffled index order. -/
def testIdxOf (shuffled : List Nat) (n : Nat) : List Nat :=
  shuffled.take (nTestOf n)

/-- Train indices: the remaining entries of the shuffled index order. -/
def trainIdxOf (shuffled : List Nat) (n : Nat) : List Nat :=
  shuffled.drop (nTestOf n)

/-- Output of the preprocessing section: standardized train and test
partitions together with the index lists that produced them. -/
structure SplitOut where
  xTrain : List (List ℚ)
  xTest : List (List ℚ)
  yTrain : List Bool
  yTest : List Bool
  trainIdx : List Nat
  testIdx : List Nat
deriving DecidableEq

/-- Preprocessing section (lines 250-264): standardize the whole feature
matrix, then split with test_size 0.2, random_state 42 and stratify Y.
The shuffle parameter models the seeded stratified shuffle of the library:
it receives the fixed seed 42 and the label vector, and returns the index
order; the library guarantees it permutes the range of the sample count. -/
def preprocess (sqrtFn : ℚ → ℚ) (shuffle : Nat → List Bool → List Nat)
    (X : List (List ℚ)) (Y : List Bool) : SplitOut :=
  let Xs := standardize sqrtFn X
  let shuffled := shuffle 42 Y
  let tIdx := testIdxOf shuffled Y.length
  let rIdx := trainIdxOf shuffled Y.length
  { xTrain := selectRows Xs rIdx
    xTest := selectRows Xs tIdx
    yTrain := selectRows Y rIdx
    yTest := selectRows Y tIdx
    trainIdx := rIdx
    testIdx := tIdx }

/-- Solver values of the logistic-regression grid (line 310). -/
inductive LRSolver
| lbfgs
| liblinear
deriving DecidableEq

/-- One logistic-regression hyperparameter configuration; field order follows
the sorted parameter-key order C, max_iter, solver used by the enumeration. -/
structure LRConfig where
  c : ℚ
  maxIter : Nat
  solver : LRSolver
deriving DecidableEq

/-- The declared logistic-regression grid (lines 308-312), enumerated the way
the library enumerates a parameter grid: keys sorted, last key varying
fastest.  5 x 1 x 2 = 10 configurations. -/
def lrGrid : List LRConfig :=
  ([1/100, 1/10, 1, 10, 100] : List ℚ).flatMap fun cv =>
    ([1000] : List Nat).flatMap fun mi =>
      [LRSolver.lbfgs, LRSolver.liblinear].map fun s => ⟨cv, mi, s⟩

/-- Kernel values of the SVM grid (line 371). -/
inductive SVMKernel
| linear
| rbf
deriving DecidableEq

/-- Gamma values of the SVM grid (line 373). -/
inductive SVMGamma
| scale
| auto
deriving DecidableEq

/-- One SVM hyperparameter configuration; field order follows the sorted
parameter-key order C, gamma, kernel. -/
structure SVMConfig where
  c : ℚ
  gamma : SVMGamma
  kernel : SVMKernel
deriving DecidableEq

/-- The declared SVM grid (lines 370-374): 3 x 2 x 2 = 12 configurations. -/
def svmGrid : List SVMConfig :=
  ([1/10, 1, 10] : List ℚ).flatMap fun cv =>
    [SVMGamma.scale, SVMGamma.auto].flatMap fun g =>
      [SVMKernel.linear, SVMKernel.rbf].map fun k => ⟨cv, g, k⟩

/-- Criterion values of the decision-tree grid (line 433). -/
inductive TreeCriterion
| gini
| entropy
deriving DecidableEq

/-- Splitter values of the decision-tree grid (line 434). -/
inductive TreeSplitter
| best
| random
deriving DecidableEq

/-- max_features values of the decision-tree grid (line 436). -/
inductive TreeMaxFeatures
| sqrtFeat
| allFeat
deriving DecidableEq

/-- One decision-tree hyperparameter configuration; field order follows the
sorted parameter-key order criterion, max_depth, max_features,
min_samples_leaf, min_samples_split, splitter. -/
structure TreeConfig where
  criterion : TreeCriterion
  maxDepth : Nat
  maxFeatures : TreeMaxFeatures
  minSamplesLeaf : Nat
  minSamplesSplit : Nat
  splitter : TreeSplitter
deriving DecidableEq

/-- The declared decision-tree grid (lines 432-439):
2 x 8 x 2 x 3 x 3 x 2 = 288 configurations. -/
def treeGrid : List TreeConfig :=
  [TreeCriterion.gini, TreeCriterion.entropy].flatMap fun cr =>
    ([2, 4, 6, 8, 10, 12, 14, 16] : List Nat).flatMap fun d =>
      [TreeMaxFeatures.sqrtFeat, TreeMaxFeatures.allFeat].flatMap fun mf =>
        ([1, 2, 4] : List Nat).flatMap fun ml =>
          ([2, 5, 10] : List Nat).flatMap fun ms =>
            [TreeSplitter.best, TreeSplitter.random].map fun sp =>
              ⟨cr, d, mf, ml, ms, sp⟩

/-- Algorithm values of the KNN grid (line 499). -/
inductive KNNAlgorithm
| auto
| ballTree
| kdTree
deriving DecidableEq

/-- Weights values of the KNN grid (line 501). -/
inductive KNNWeights
| uniform
| distance
deriving DecidableEq

/-- One KNN hyperparameter configuration; field order follows the sorted
parameter-key order algorithm, n_neighbors, p, weights. -/
structure KNNConfig where
  algorithm : KNNAlgorithm
  nNeighbors : Nat
  p : Nat
  weights : KNNWeights
deriving DecidableEq

/-- The declared KNN grid (lines 497-502): 3 x 7 x 2 x 2 = 84 configurations. -/
def knnGrid : List KNNConfig :=
  [KNNAlgorithm.auto, KNNAlgorithm.ballTree, KNNAlgorithm.kdTree].flatMap fun a =>
    ([1, 3, 5, 7, 9, 11, 15] : List Nat).flatMap fun k =>
      ([1, 2] : List Nat).flatMap fun pv =>
        [KNNWeights.uniform, KNNWeights.distance].map fun w => ⟨a, k, pv, w⟩

/-- Left-to-right scan keeping the current best and replacing it only on a
strictly higher score.  This is the tie-breaking behaviour shared by the
grid-search best_index_ computation (first index of the minimal accuracy
rank) and by the Python max builtin used by the reporter: on a score tie
the first-encountered candidate wins. -/
def runBest {α : Type} (score : α → ℚ) (b : α) : List α → α
  | [] => b
  | x :: xs => runBest score (if score b < score x then x else b) xs

/-- Best candidate of a list under a score, first-encountered maximum
winning; none on the empty list. -/
def selectBest {α : Type} (score : α → ℚ) : List α → Option α
  | [] => none
  | x :: xs => some (runBest score x xs)

theorem runBest_spec {α : Type} (score : α → ℚ) :
    ∀ (xs : List α) (b : α),
      (runBest score b xs = b ∧ ∀ x ∈ xs, score x ≤ score b) ∨
      (∃ l₁ l₂, xs = l₁ ++ runBest score b xs :: l₂ ∧
        score b < score (runBest score b xs) ∧
        (∀ x ∈ l₁, score x < score (runBest score b xs)) ∧
        (∀ x ∈ l₂, score x ≤ score (runBest score b xs))) := by
  intro xs
  induction xs with
  | nil => intro b; exact Or.inl ⟨rfl, by simp⟩
  | cons x xs ih =>
    intro b
    by_cases hbx : score b < score x
    · have hstep : runBest score b (x :: xs) = runBest score x xs := by
        simp [runBest, hbx]
      rcases ih x with ⟨heq, hle⟩ | ⟨l₁, l₂, hdec, hlt, hl₁, hl₂⟩
      · refine Or.inr ⟨[], xs, ?_, ?_, ?_, ?_⟩
        · simp [hstep, heq]
        · rw [hstep, heq]; exact hbx
        · simp
        · intro y hy; rw [hstep, heq]; exact hle y hy
      · refine Or.inr ⟨x :: l₁, l₂, ?_, ?_, ?_, ?_⟩
        · rw [hstep]; conv_lhs => rw [hdec]
          simp
        · rw [hstep]; exact hbx.trans hlt
        · intro y hy
          rcases List.mem_cons.mp hy with hyx | hyl
          · rw [hstep, hyx]; exact hlt
          · rw [hstep]; exact hl₁ y hyl
        · intro y hy; rw [hstep]; exact hl₂ y hy
    · have hstep : runBest score b (x :: xs) = runBest score b xs := by
        simp [runBest, hbx]
      rcases ih b with ⟨heq, hle⟩ | ⟨l₁, l₂, hdec, hlt, hl₁, hl₂⟩
      · refine Or.inl ⟨by rw [hstep, heq], ?_⟩
        intro y hy
        rcases List.mem_cons.mp hy with hyx | hyl
        · rw [hyx]; exact le_of_not_lt hbx
        · exact hle y hyl
      · refine Or.inr ⟨x :: l₁, l₂, ?_, ?_, ?_, ?_⟩
        · rw [hstep]; conv_lhs => rw [hdec]
          simp
        · rw [hstep]; exact hlt
        · intro y hy
          rcases List.mem_cons.mp hy with hyx | hyl
          · rw [hstep, hyx]
            exact lt_of_le_of_lt (le_of_not_lt hbx) hlt
          · rw [hstep]; exact hl₁ y hyl
        · intro y hy; rw [hstep]; exact hl₂ y hy

/-- On a nonempty candidate list the selected best exists, sits at a
position splitting the list, strictly beats everything before it, and is
at least as good as everything in the list. -/
theorem selectBest_first_max {α : Type} (score : α → ℚ) (c : α) (cs : List α) :
    ∃ r l₁ l₂, selectBest score (c :: cs) = some r ∧
      c :: cs = l₁ ++ r :: l₂ ∧
      (∀ x ∈ l₁, score x < score r) ∧
      (∀ x ∈ c :: cs, score x ≤ score r) := by
  rcases runBest_spec score cs c with ⟨heq, hle⟩ | ⟨l₁, l₂, hdec, hlt, hl₁, hl₂⟩
  · refine ⟨runBest score c cs, [], cs, rfl, by simp [heq], by simp, ?_⟩
    intro y hy
    rcases List.mem_cons.mp hy with hyx | hyl
    · rw [hyx, heq]
    · rw [heq]; exact hle y hyl
  · refine ⟨runBest score c cs, c :: l₁, l₂, rfl, ?_, ?_, ?_⟩
    · conv_lhs => rw [hdec]
      simp
    · intro y hy
      rcases List.mem_cons.mp hy with hyx | hyl
      · rw [hyx]; exact hlt
      · exact hl₁ y hyl
    · intro y hy
      rcases List.mem_cons.mp hy with hyx | hyl
      · rw [hyx]; exact le_of_lt hlt
      · rw [hdec] at hyl
        rcases List.mem_append.mp hyl with h | h
        · exact le_of_lt (hl₁ y h)
        · rcases List.mem_cons.mp h with h' | h'
          · rw [h']
          · exact hl₂ y h'

/-- Count of aligned label pairs satisfying a predicate on (true label,
predicted label). -/
def countPairs (f : Bool → Bool → Bool) (t p : List Bool) : Nat :=
  ((t.zip p).filter (fun x => f x.1 x.2)).length

/-- True positives: label true, predicted true. -/
def tpCount (t p : List Bool) : Nat := countPairs (fun a b => a && b) t p

/-- True negatives: label false, predicted false. -/
def tnCount (t p : List Bool) : Nat := countPairs (fun a b => !a && !b) t p

/-- False positives: label false, predicted true. -/
def fpCount (t p : List Bool) : Nat := countPairs (fun a b => !a && b) t p

/-- False negatives: label true, predicted false. -/
def fnCount (t p : List Bool) : Nat := countPairs (fun a b => a && !b) t p

/-- accuracy_score: fraction of positions where prediction equals label. -/
def accuracyScore (t p : List Bool) : ℚ :=
  (countPairs (fun a b => a == b) t p : ℚ) / (t.length : ℚ)

/-- Number of samples whose true label is b. -/
def trueCount (t : List Bool) (b : Bool) : Nat :=
  (t.filter (fun a => a == b)).length

/-- Number of samples predicted as b. -/
def predCount (p : List Bool) (b : Bool) : Nat :=
  (p.filter (fun a => a == b)).length

/-- Number of samples with true label b that are also predicted b. -/
def correctCount (t p : List Bool) (b : Bool) : Nat :=
  countPairs (fun a c => (a == b) && (c == b)) t p

/-- Per-class recall with zero_division 0 (rational division by zero is 0,
matching the zero_division flag of the source at lines 139-141). -/
def classRecall (t p : List Bool) (b : Bool) : ℚ :=
  (correctCount t p b : ℚ) / (trueCount t b : ℚ)

/-- Per-class precision with zero_division 0. -/
def classPrecision (t p : List Bool) (b : Bool) : ℚ :=
  (correctCount t p b : ℚ) / (predCount p b : ℚ)

/-- Per-class F1 with zero_division 0. -/
def classF1 (t p : List Bool) (b : Bool) : ℚ :=
  2 * classPrecision t p b * classRecall t p b /
    (classPrecision t p b + classRecall t p b)

/-- Class weight for the weighted averages: support of the class over the
sample count. -/
def classWeight (t : List Bool) (b : Bool) : ℚ :=
  (trueCount t b : ℚ) / (t.length : ℚ)

/-- recall_score with average weighted: support-weighted mean of the
per-class recalls over the two label values. -/
def recallWeighted (t p : List Bool) : ℚ :=
  classWeight t false * classRecall t p false + classWeight t true * classRecall t p true

/-- precision_score with average weighted. -/
def precisionWeighted (t p : List Bool) : ℚ :=
  classWeight t false * classPrecision t p false + classWeight t true * classPrecision t p true

/-- f1_score with average weighted. -/
def f1Weighted (t p : List Bool) : ℚ :=
  classWeight t false * classF1 t p false + classWeight t true * classF1 t p true

/-- roc_auc_score for binary labels: the probability, over positive-negative
sample pairs, that the positive sample gets the higher class-1 score, ties
counting one half. -/
def rocAucScore (t : List Bool) (probs : List ℚ) : ℚ :=
  let pairs := t.zip probs
  let pos := (pairs.filter (fun x => x.1)).map (fun x => x.2)
  let neg := (pairs.filter (fun x => !x.1)).map (fun x => x.2)
  ((pos.map (fun sp =>
      (neg.map (fun sn => if sn < sp then (1 : ℚ) else if sn = sp then 1/2 else 0)).sum)).sum) /
    ((pos.length : ℚ) * (neg.length : ℚ))

/-- log_loss: negative mean log-likelihood of the true labels under the
class-1 probabilities.  The logarithm is the logFn parameter, since it is
not rational-computable. -/
def logLossScore (logFn : ℚ → ℚ) (t : List Bool) (probs : List ℚ) : ℚ :=
  -(((t.zip probs).map (fun x => if x.1 then logFn x.2 else logFn (1 - x.2))).sum) /
    (t.length : ℚ)

/-- The metric record built by calculate_metrics (lines 118-174).  Fields
holding None in the source are Options here. -/
structure Metrics where
  modelName : String
  accuracy : ℚ
  precision : ℚ
  recallV : ℚ
  f1 : ℚ
  specificity : Option ℚ
  sensitivity : ℚ
  rocAuc : Option ℚ
  logLoss : Option ℚ
  tpC : Option Nat
  tnC : Option Nat
  fpC : Option Nat
  fnC : Option Nat
deriving DecidableEq

/-- Condition under which the confusion matrix of the source is exactly
2 x 2 (cm.size == 4 at line 146): the matrix is indexed by the sorted
distinct labels occurring in either vector, so it is 2 x 2 exactly when
both label values occur somewhere in the true or predicted labels. -/
def twoByTwo (t p : List Bool) : Bool :=
  (t ++ p).contains true && (t ++ p).contains false

/-- calculate_metrics (lines 118-174): basic weighted metrics, the
confusion-matrix branch on cm.size == 4 with zero-denominator guards and the
fall-back of sensitivity to recall, and the probability-based metrics
computed exactly when a probability vector is passed. -/
def calcMetrics (logFn : ℚ → ℚ) (name : String) (t p : List Bool)
    (probs : Option (List ℚ)) : Metrics :=
  let tn := tnCount t p
  let fp := fpCount t p
  let fnc := fnCount t p
  let tp := tpCount t p
  let recW := recallWeighted t p
  if twoByTwo t p then
    { modelName := name
      accuracy := accuracyScore t p
      precision := precisionWeighted t p
      recallV := recW
      f1 := f1Weighted t p
      specificity := some (if 0 < tn + fp then (tn : ℚ) / ((tn : ℚ) + (fp : ℚ)) else 0)
      sensitivity := if 0 < tp + fnc then (tp : ℚ) / ((tp : ℚ) + (fnc : ℚ)) else 0
      rocAuc := probs.map (rocAucScore t)
      logLoss := probs.map (logLossScore logFn t)
      tpC := some tp
      tnC := some tn
      fpC := some fp
      fnC := some fnc }
  else
    { modelName := name
      accuracy := accuracyScore t p
      precision := precisionWeighted t p
      recallV := recW
      f1 := f1Weighted t p
      specificity := none
      sensitivity := recW
      rocAuc := probs.map (rocAucScore t)
      logLoss := probs.map (logLossScore logFn t)
      tpC := none
      tnC := none
      fpC := none
      fnC := none }

/-- One cell of the persisted comparison table.  A num cell is an f-string
formatted numeric value, na is the hardcoded literal string used for a
missing entry, text is a free-form string, and err marks a cell whose
f-string formatting of a None value would raise a TypeError. -/
inductive Cell
| num (q : ℚ)
| na
| text (s : String)
| err
deriving DecidableEq

/-- Format an optional value the way the f-strings of the source do: a
numeric cell when the value exists, a formatting error on None. -/
def fmtCell : Option ℚ → Cell
  | some q => .num q
  | none => .err

/-- Per-family predictions on the test partition: the class predictions and
the class-1 probability column.  Every family of the source produces both
(predict and predict_proba are called unconditionally at lines 332-333,
394-395, 459-460, 522-523). -/
structure FamilyOutput where
  preds : List Bool
  probs : List ℚ
deriving DecidableEq

/-- Evaluation of one family (the calculate_metrics calls at lines 336, 398,
463, 526): probabilities are always passed. -/
def evalFamily (logFn : ℚ → ℚ) (name : String) (yTest : List Bool)
    (o : FamilyOutput) : Metrics :=
  calcMetrics logFn name yTest o.preds (some o.probs)

/-- The Logistic Regression column of the comparison table (lines 347-357):
all nine entries are formatted values, including the log-loss value. -/
def lrColumn (m : Metrics) (cv : ℚ) : List Cell :=
  [.num m.accuracy, .num m.precision, .num m.recallV, .num m.f1, .num cv,
   fmtCell m.specificity, .num m.sensitivity, fmtCell m.rocAuc, fmtCell m.logLoss]

/-- The SVM column of the comparison table (lines 409-419): the first eight
entries are formatted values but the log-loss entry is the hardcoded
literal at line 418. -/
def svmColumn (m : Metrics) (cv : ℚ) : List Cell :=
  [.num m.accuracy, .num m.precision, .num m.recallV, .num m.f1, .num cv,
   fmtCell m.specificity, .num m.sensitivity, fmtCell m.rocAuc, .na]

/-- The Decision Tree column of the comparison table (lines 474-484): the
log-loss entry is the hardcoded literal at line 483. -/
def treeColumn (m : Metrics) (cv : ℚ) : List Cell :=
  [.num m.accuracy, .num m.precision, .num m.recallV, .num m.f1, .num cv,
   fmtCell m.specificity, .num m.sensitivity, fmtCell m.rocAuc, .na]

/-- The KNN column of the comparison table (lines 537-547): the log-loss
entry is the hardcoded literal at line 546. -/
def knnColumn (m : Metrics) (cv : ℚ) : List Cell :=
  [.num m.accuracy, .num m.precision, .num m.recallV, .num m.f1, .num cv,
   fmtCell m.specificity, .num m.sensitivity, fmtCell m.rocAuc, .na]

/-- The persisted comparison table, one column per family in script order. -/
def comparisonTable (logFn : ℚ → ℚ) (yTest : List Bool)
    (lrO svmO treeO knnO : FamilyOutput) (cvL cvS cvT cvK : ℚ) :
    List (List Cell) :=
  [lrColumn (evalFamily logFn "Logistic Regression" yTest lrO) cvL,
   svmColumn (evalFamily logFn "Support Vector Machine" yTest svmO) cvS,
   treeColumn (evalFamily logFn "Decision Tree" yTest treeO) cvT,
   knnColumn (evalFamily logFn "K-Nearest Neighbors" yTest knnO) cvK]

/-- Python truthiness of an optional float: None and 0.0 are falsy,
everything else truthy (the guard at line 605). -/
def truthy : Option ℚ → Bool
  | none => false
  | some q => decide (q ≠ 0)

/-- One model block of the detailed-results file (lines 595-607), as a list
of labelled cells.  Every line except the ROC AUC line is written
unconditionally; the ROC AUC line is written only when the stored roc_auc
value is truthy. -/
def detailBlock (m : Metrics) (cv : ℚ) (bestParams : String) :
    List (String × Cell) :=
  [("Accuracy", .num m.accuracy), ("Precision", .num m.precision),
   ("Recall", .num m.recallV), ("F1-Score", .num m.f1),
   ("CV Accuracy", .num cv), ("Specificity", fmtCell m.specificity),
   ("Sensitivity", .num m.sensitivity)] ++
  (if truthy m.rocAuc then [("ROC AUC", fmtCell m.rocAuc)] else []) ++
  [("Best Params", Cell.text bestParams)]

/-- Summary row used by the final comparison section (lines 561-575): family
name, test accuracy, cross-validated accuracy. -/
structure FamilySummary where
  famName : String
  testAcc : ℚ
  cvAcc : ℚ
deriving DecidableEq

/-- Best family by raw test accuracy (lines 562-563): Python max over the
results in insertion order, first-encountered maximum winning. -/
def bestByTest (rs : List FamilySummary) : Option FamilySummary :=
  selectBest (fun r => r.testAcc) rs

/-- Best family by cross-validated accuracy (lines 570-571), computed
separately from the test-accuracy winner. -/
def bestByCV (rs : List FamilySummary) : Option FamilySummary :=
  selectBest (fun r => r.cvAcc) rs

/-- The two winner names printed by the final comparison section, in order:
best by test accuracy (line 566), then best by CV accuracy (line 574). -/
def finalReport (rs : List FamilySummary) : List String :=
  match bestByTest rs, bestByCV rs with
  | some a, some b => [a.famName, b.famName]
  | _, _ => []

/-- Library environment: the numeric and randomized primitives the script
takes from its libraries.  Each is a pure function; in particular
stratShuffle is the seeded stratified shuffle behind train_test_split
(deterministic in the seed it is given), and the four cv functions are the
10-fold cross-validated accuracy scorers of the grid searches, deterministic
functions of the training partition because every estimator is constructed
with random_state 42 (lines 315, 377, 442) or is deterministic (line 505)
and the 10-fold splitter does not shuffle. -/
structure LibEnv where
  stratShuffle : Nat → List Bool → List Nat
  sqrtFn : ℚ → ℚ
  logFn : ℚ → ℚ
  cvLR : List (List ℚ) → List Bool → LRConfig → ℚ
  cvSVM : List (List ℚ) → List Bool → SVMConfig → ℚ
  cvTree : List (List ℚ) → List Bool → TreeConfig → ℚ
  cvKNN : List (List ℚ) → List Bool → KNNConfig → ℚ

/-- A run environment: the library primitives plus the ambient entropy of
the run (operating-system entropy an unseeded random source would draw
from).  The script never draws from it, because every random_state is
pinned to 42. -/
structure RunEnv where
  lib : LibEnv
  ambient : List Nat

/-- The run outputs the determinism claim speaks about: the partitions and
the four selected best configurations. -/
structure PipelineSel where
  split : SplitOut
  bestLR : Option LRConfig
  bestSVM : Option SVMConfig
  bestTree : Option TreeConfig
  bestKNN : Option KNNConfig
deriving DecidableEq

/-- The pipeline through data loading, preprocessing and the four grid
searches (lines 232-264 and the four GridSearchCV fits), returning the
partitions and the per-family best configurations. -/
def pipelineSelect (env : RunEnv) (labelTab : Option (List Bool))
    (featTab : Option (List (List ℚ))) : Except Nat PipelineSel :=
  match loadData labelTab featTab with
  | .error e => .error e
  | .ok (x, y) =>
    let sp := preprocess env.lib.sqrtFn env.lib.stratShuffle x y
    .ok
      { split := sp
        bestLR := selectBest (env.lib.cvLR sp.xTrain sp.yTrain) lrGrid
        bestSVM := selectBest (env.lib.cvSVM sp.xTrain sp.yTrain) svmGrid
        bestTree := selectBest (env.lib.cvTree sp.xTrain sp.yTrain) treeGrid
        bestKNN := selectBest (env.lib.cvKNN sp.xTrain sp.yTrain) knnGrid }

theorem selectRows_map {α β : Type} (g : α → β) (X : List α) (idx : List Nat) :
    selectRows (X.map g) idx = (selectRows X idx).map g := by
  induction idx with
  | nil => rfl
  | cons i is ih =>
    simp only [selectRows, List.filterMap_cons, List.getElem?_map] at ih ⊢
    cases h : X[i]? with
    | none => simp [h, ih]
    | some a => simp [h, ih]

theorem selectRows_length {α : Type} (X : List α) (idx : List Nat)
    (h : ∀ i ∈ idx, i < X.length) : (selectRows X idx).length = idx.length := by
  induction idx with
  | nil => rfl
  | cons i is ih =>
    have hi : i < X.length := h i (List.mem_cons_self i is)
    have ha : X[i]? = some X[i] := List.getElem?_eq_getElem hi
    simp only [selectRows, List.filterMap_cons, ha]
    have := ih (fun j hj => h j (List.mem_cons_of_mem i hj))
    simp only [selectRows] at this
    simp [this]

/-- C1 counterexample: both sources present with row counts 2 and 3; the
data-loading section returns them successfully instead of aborting, so a
row-count mismatch does not make the loader fail fatally. -/
theorem loadData_mismatch_not_fatal :
    loadData (some [true, false]) (some [[0], [0], [0]]) =
      Except.ok ([[0], [0], [0]], [true, false]) ∧
    ([true, false] : List Bool).length = 2 ∧
    ([[0], [0], [0]] : List (List ℚ)).length = 3 :=
  ⟨rfl, rfl, rfl⟩

/-- C1 amended: the Data Loader aborts with exit code 1 exactly when either
tabular source is missing; whenever both are present it returns the feature
matrix and label vector as loaded, performing no row-count validation, so in
particular for row-count-matching sources the returned pair has matching row
count. -/
theorem loadData_spec (d : Option (List Bool)) (x : Option (List (List ℚ))) :
    (loadData d x = Except.error 1 ↔ d = none ∨ x = none) ∧
    (∀ dv xv, d = some dv → x = some xv → loadData d x = Except.ok (xv, dv)) ∧
    (∀ dv xv, d = some dv → x = some xv → xv.length = dv.length →
      ∃ feats labels, loadData d x = Except.ok (feats, labels) ∧
        feats.length = labels.length) := by
  refine ⟨?_, ?_, ?_⟩
  · cases d <;> cases x <;> simp [loadData]
  · intro dv xv hd hx
    rw [hd, hx]
    rfl
  · intro dv xv hd hx hlen
    exact ⟨xv, dv, by rw [hd, hx]; rfl, hlen⟩

/-- C1 witness at a concrete present pair of row count 1 each. -/
theorem loadData_spec_witness :
    loadData (some [true]) (some [[5]]) = Except.ok ([[5]], [true]) ∧
    (∃ feats labels,
      loadData (some [true]) (some [[5]]) = Except.ok (feats, labels) ∧
      feats.length = labels.length) :=
  ⟨(loadData_spec (some [true]) (some [[5]])).2.1 [true] [[5]] rfl rfl,
   (loadData_spec (some [true]) (some [[5]])).2.2 [true] [[5]] rfl rfl rfl⟩

theorem nTestOf_le (n : Nat) : nTestOf n ≤ n := by
  unfold nTestOf
  omega

/-- C3: the preprocessor standardizes with parameters fit on the entire
feature matrix and applied uniformly (every partition row is the transform,
with whole-matrix parameters, of the corresponding original row), and the
single seeded split at ratio 80/20 gives, on 90 samples, a test partition of
exactly 18 samples and a train partition of exactly 72. -/
theorem preprocess_whole_fit_split_90 (sqrtFn : ℚ → ℚ)
    (shuffle : Nat → List Bool → List Nat) (X : List (List ℚ)) (Y : List Bool)
    (hX : X.length = 90) (hY : Y.length = 90)
    (hperm : (shuffle 42 Y).Perm (List.range 90)) :
    (preprocess sqrtFn shuffle X Y).xTest.length = 18 ∧
    (preprocess sqrtFn shuffle X Y).xTrain.length = 72 ∧
    (preprocess sqrtFn shuffle X Y).xTest =
      (selectRows X (preprocess sqrtFn shuffle X Y).testIdx).map
        (transformRow sqrtFn X) ∧
    (preprocess sqrtFn shuffle X Y).xTrain =
      (selectRows X (preprocess sqrtFn shuffle X Y).trainIdx).map
        (transformRow sqrtFn X) := by
  have hslen : (shuffle 42 Y).length = 90 := by
    rw [hperm.length_eq, List.length_range]
  have hnt : nTestOf Y.length = 18 := by rw [hY]; rfl
  have hmem : ∀ i ∈ shuffle 42 Y, i < X.length := by
    intro i hi
    have : i ∈ List.range 90 := hperm.mem_iff.mp hi
    rw [hX]
    exact List.mem_range.mp this
  have htestmem : ∀ i ∈ (preprocess sqrtFn shuffle X Y).testIdx, i < X.length :=
    fun i hi => hmem i (List.mem_of_mem_take hi)
  have htrainmem : ∀ i ∈ (preprocess sqrtFn shuffle X Y).trainIdx, i < X.length :=
    fun i hi => hmem i (List.mem_of_mem_drop hi)
  have hmap : ∀ idx, selectRows (standardize sqrtFn X) idx =
      (selectRows X idx).map (transformRow sqrtFn X) :=
    fun idx => selectRows_map (transformRow sqrtFn X) X idx
  refine ⟨?_, ?_, ?_, ?_⟩
  · show (selectRows (standardize sqrtFn X) (testIdxOf (shuffle 42 Y) Y.length)).length = 18
    rw [hmap, List.length_map,
      selectRows_length X _ (by simpa [preprocess] using htestmem)]
    simp [testIdxOf, hnt, List.length_take, hslen]
  · show (selectRows (standardize sqrtFn X) (trainIdxOf (shuffle 42 Y) Y.length)).length = 72
    rw [hmap, List.length_map,
      selectRows_length X _ (by simpa [preprocess] using htrainmem)]
    simp [trainIdxOf, hnt, List.length_drop, hslen]
  · exact hmap _
  · exact hmap _

/-- C3 witness: the identity shuffle on 90 samples of a single constant
feature, with the identity standing in for the square root. -/
theorem preprocess_whole_fit_split_90_witness :
    (List.replicate 90 ([0] : List ℚ)).length = 90 ∧
    (List.replicate 90 true).length = 90 ∧
    ((fun (_ : Nat) (_ : List Bool) => List.range 90) 42 (List.replicate 90 true)).Perm (List.range 90) ∧
    (preprocess id (fun (_ : Nat) (_ : List Bool) => List.range 90) (List.replicate 90 [0])
      (List.replicate 90 true)).xTest.length = 18 ∧
    (preprocess id (fun (_ : Nat) (_ : List Bool) => List.range 90) (List.replicate 90 [0])
      (List.replicate 90 true)).xTrain.length = 72 := by
  have h := preprocess_whole_fit_split_90 id (fun (_ : Nat) (_ : List Bool) => List.range 90)
    (List.replicate 90 [0]) (List.replicate 90 true)
    (List.length_replicate 90 [0]) (List.length_replicate 90 true) (List.Perm.refl _)
  exact ⟨List.length_replicate 90 [0], List.length_replicate 90 true,
    List.Perm.refl _, h.1, h.2.1⟩

/-- C4: for any sample count, the train-partition size plus the
test-partition size equals the total sample count, the two index sets are
disjoint, and their union covers exactly the full sample index range. -/
theorem preprocess_partition (sqrtFn : ℚ → ℚ)
    (shuffle : Nat → List Bool → List Nat) (X : List (List ℚ)) (Y : List Bool)
    (hperm : (shuffle 42 Y).Perm (List.range Y.length)) :
    (preprocess sqrtFn shuffle X Y).trainIdx.length +
      (preprocess sqrtFn shuffle X Y).testIdx.length = Y.length ∧
    (preprocess sqrtFn shuffle X Y).yTrain.length +
      (preprocess sqrtFn shuffle X Y).yTest.length = Y.length ∧
    (∀ i ∈ (preprocess sqrtFn shuffle X Y).testIdx,
      i ∉ (preprocess sqrtFn shuffle X Y).trainIdx) ∧
    (∀ i, i < Y.length ↔
      (i ∈ (preprocess sqrtFn shuffle X Y).trainIdx ∨
       i ∈ (preprocess sqrtFn shuffle X Y).testIdx)) := by
  set n := Y.length with hn
  have hslen : (shuffle 42 Y).length = n := by
    rw [hperm.length_eq, List.length_range]
  have hnd : (shuffle 42 Y).Nodup := hperm.nodup_iff.mpr (List.nodup_range n)
  have hsplit : (shuffle 42 Y).take (nTestOf n) ++ (shuffle 42 Y).drop (nTestOf n) =
      shuffle 42 Y := List.take_append_drop _ _
  have hmemlt : ∀ i ∈ shuffle 42 Y, i < n := by
    intro i hi
    exact List.mem_range.mp (hperm.mem_iff.mp hi)
  have htr : (preprocess sqrtFn shuffle X Y).trainIdx =
      (shuffle 42 Y).drop (nTestOf n) := rfl
  have hte : (preprocess sqrtFn shuffle X Y).testIdx =
      (shuffle 42 Y).take (nTestOf n) := rfl
  refine ⟨?_, ?_, ?_, ?_⟩
  · rw [htr, hte, List.length_drop, List.length_take, hslen]
    have := nTestOf_le n
    omega
  · have h1 : (preprocess sqrtFn shuffle X Y).yTrain =
        selectRows Y ((shuffle 42 Y).drop (nTestOf n)) := rfl
    have h2 : (preprocess sqrtFn shuffle X Y).yTest =
        selectRows Y ((shuffle 42 Y).take (nTestOf n)) := rfl
    rw [h1, h2,
      selectRows_length Y _ (fun i hi => hmemlt i (List.mem_of_mem_drop hi)),
      selectRows_length Y _ (fun i hi => hmemlt i (List.mem_of_mem_take hi)),
      List.length_drop, List.length_take, hslen]
    have := nTestOf_le n
    omega
  · intro i hite hitr
    rw [hte] at hite
    rw [htr] at hitr
    have hnd' : ((shuffle 42 Y).take (nTestOf n) ++
        (shuffle 42 Y).drop (nTestOf n)).Nodup := by
      rw [hsplit]; exact hnd
    exact ((List.nodup_append.mp hnd').2.2) hite hitr
  · intro i
    constructor
    · intro hi
      have : i ∈ shuffle 42 Y := hperm.mem_iff.mpr (List.mem_range.mpr hi)
      rw [← hsplit] at this
      rcases List.mem_append.mp this with h | h
      · exact Or.inr (by rw [hte]; exact h)
      · exact Or.inl (by rw [htr]; exact h)
    · intro h
      rcases h with h | h
      · exact hmemlt i (List.mem_of_mem_drop (by rw [htr] at h; exact h))
      · exact hmemlt i (List.mem_of_mem_take (by rw [hte] at h; exact h))

/-- C4 witness: the identity shuffle on 5 samples. -/
theorem preprocess_partition_witness :
    ((fun (_ : Nat) (_ : List Bool) => List.range 5) 42 [true, false, true, false, true]).Perm
      (List.range ([true, false, true, false, true] : List Bool).length) ∧
    (preprocess id (fun (_ : Nat) (_ : List Bool) => List.range 5) [[1], [2], [3], [4], [5]]
        [true, false, true, false, true]).trainIdx.length +
      (preprocess id (fun (_ : Nat) (_ : List Bool) => List.range 5) [[1], [2], [3], [4], [5]]
        [true, false, true, false, true]).testIdx.length = 5 := by
  have h := preprocess_partition id (fun (_ : Nat) (_ : List Bool) => List.range 5)
    [[1], [2], [3], [4], [5]] [true, false, true, false, true]
    (List.Perm.refl _)
  exact ⟨List.Perm.refl _, h.1⟩

theorem selectBest_spec {α : Type} (score : α → ℚ) (l : List α) (h : l ≠ []) :
    ∃ r l₁ l₂, selectBest score l = some r ∧ r ∈ l ∧ l = l₁ ++ r :: l₂ ∧
      (∀ x ∈ l₁, score x < score r) ∧ (∀ x ∈ l, score x ≤ score r) := by
  match l, h with
  | c :: cs, _ =>
    obtain ⟨r, l₁, l₂, h1, h2, h3, h4⟩ := selectBest_first_max score c cs
    exact ⟨r, l₁, l₂, h1, by rw [h2]; simp, h2, h3, h4⟩

/-- C5: for each of the four model families and any cross-validated accuracy
scoring, the grid search selects a configuration that is a member of the
declared grid, scores at least as high as every grid member, and is the
first-encountered configuration achieving that maximum (everything strictly
before it in enumeration order scores strictly lower). -/
theorem gridSearch_selects_first_max (sLR : LRConfig → ℚ) (sSVM : SVMConfig → ℚ)
    (sTree : TreeConfig → ℚ) (sKNN : KNNConfig → ℚ) :
    (∃ r l₁ l₂, selectBest sLR lrGrid = some r ∧ r ∈ lrGrid ∧
      lrGrid = l₁ ++ r :: l₂ ∧ (∀ x ∈ l₁, sLR x < sLR r) ∧
      (∀ x ∈ lrGrid, sLR x ≤ sLR r)) ∧
    (∃ r l₁ l₂, selectBest sSVM svmGrid = some r ∧ r ∈ svmGrid ∧
      svmGrid = l₁ ++ r :: l₂ ∧ (∀ x ∈ l₁, sSVM x < sSVM r) ∧
      (∀ x ∈ svmGrid, sSVM x ≤ sSVM r)) ∧
    (∃ r l₁ l₂, selectBest sTree treeGrid = some r ∧ r ∈ treeGrid ∧
      treeGrid = l₁ ++ r :: l₂ ∧ (∀ x ∈ l₁, sTree x < sTree r) ∧
      (∀ x ∈ treeGrid, sTree x ≤ sTree r)) ∧
    (∃ r l₁ l₂, selectBest sKNN knnGrid = some r ∧ r ∈ knnGrid ∧
      knnGrid = l₁ ++ r :: l₂ ∧ (∀ x ∈ l₁, sKNN x < sKNN r) ∧
      (∀ x ∈ knnGrid, sKNN x ≤ sKNN r)) :=
  ⟨selectBest_spec sLR lrGrid (by simp [lrGrid]),
   selectBest_spec sSVM svmGrid (by simp [svmGrid]),
   selectBest_spec sTree treeGrid (by decide),
   selectBest_spec sKNN knnGrid (by simp [knnGrid])⟩

theorem countPairs_partition (l : List (Bool × Bool)) :
    ((l.filter (fun x => x.1 && x.2)).length +
        (l.filter (fun x => !x.1 && !x.2)).length +
        (l.filter (fun x => !x.1 && x.2)).length +
        (l.filter (fun x => x.1 && !x.2)).length) = l.length := by
  induction l with
  | nil => rfl
  | cons x xs ih =>
    rcases x with ⟨a, b⟩
    cases a <;> cases b <;> simp only [List.filter_cons] <;> simp <;> omega

theorem guard_div_nonneg (a b : Nat) :
    0 ≤ (if 0 < a + b then (a : ℚ) / ((a : ℚ) + (b : ℚ)) else 0) := by
  by_cases h : 0 < a + b
  · simp only [h, if_true]
    positivity
  · simp [h]

theorem guard_div_le_one (a b : Nat) :
    (if 0 < a + b then (a : ℚ) / ((a : ℚ) + (b : ℚ)) else 0) ≤ 1 := by
  by_cases h : 0 < a + b
  · simp only [h, if_true]
    rw [div_le_one (by exact_mod_cast h)]
    have : (a : ℚ) ≤ (a : ℚ) + (b : ℚ) := le_add_of_nonneg_right (by positivity)
    exact this
  · simp [h]

/-- C6: calculate_metrics yields specificity TN / (TN + FP) exactly when the
confusion matrix is 2 x 2 (both label values occur), and otherwise reports
specificity as undefined with sensitivity falling back to the weighted
recall value. -/
theorem calcMetrics_specificity_cases (logFn : ℚ → ℚ) (name : String)
    (t p : List Bool) (probs : Option (List ℚ)) :
    (twoByTwo t p = true →
      (calcMetrics logFn name t p probs).specificity =
        some ((tnCount t p : ℚ) / ((tnCount t p : ℚ) + (fpCount t p : ℚ)))) ∧
    (twoByTwo t p = false →
      (calcMetrics logFn name t p probs).specificity = none ∧
      (calcMetrics logFn name t p probs).sensitivity =
        (calcMetrics logFn name t p probs).recallV) := by
  constructor
  · intro h
    simp only [calcMetrics, h, if_true]
    by_cases h0 : 0 < tnCount t p + fpCount t p
    · simp [h0]
    · have h1 : tnCount t p = 0 := by omega
      have h2 : fpCount t p = 0 := by omega
      simp [h0, h1, h2]
  · intro h
    simp [calcMetrics, h]

/-- C6 witness: one input with both label values present and one with a
single label value. -/
theorem calcMetrics_specificity_cases_witness :
    ((calcMetrics id "m" [true, false] [true, false] none).specificity =
      some ((tnCount [true, false] [true, false] : ℚ) /
        ((tnCount [true, false] [true, false] : ℚ) +
         (fpCount [true, false] [true, false] : ℚ)))) ∧
    ((calcMetrics id "m" [true, true] [true, true] none).specificity = none ∧
     (calcMetrics id "m" [true, true] [true, true]  none).sensitivity =
       (calcMetrics id "m" [true, true] [true, true] none).recallV) :=
  ⟨(calcMetrics_specificity_cases id "m" [true, false] [true, false] none).1 rfl,
   (calcMetrics_specificity_cases id "m" [true, true] [true, true] none).2 rfl⟩

/-- C7: whenever the confusion matrix is 2 x 2 and the two label vectors
have equal length, the four confusion counts sum to the test-partition size,
and both specificity and sensitivity lie in the closed interval from 0 to 1,
including the zero-denominator guard cases. -/
theorem calcMetrics_counts_bounds (logFn : ℚ → ℚ) (name : String)
    (t p : List Bool) (probs : Option (List ℚ))
    (hlen : t.length = p.length) (h2 : twoByTwo t p = true) :
    tpCount t p + tnCount t p + fpCount t p + fnCount t p = t.length ∧
    (∃ s, (calcMetrics logFn name t p probs).specificity = some s ∧
      0 ≤ s ∧ s ≤ 1) ∧
    0 ≤ (calcMetrics logFn name t p probs).sensitivity ∧
    (calcMetrics logFn name t p probs).sensitivity ≤ 1 := by
  refine ⟨?_, ?_, ?_, ?_⟩
  · have h := countPairs_partition (t.zip p)
    have hz : (t.zip p).length = t.length := by
      rw [List.length_zip, hlen, Nat.min_self]
    have e1 : tpCount t p = ((t.zip p).filter (fun x => x.1 && x.2)).length := rfl
    have e2 : tnCount t p = ((t.zip p).filter (fun x => !x.1 && !x.2)).length := rfl
    have e3 : fpCount t p = ((t.zip p).filter (fun x => !x.1 && x.2)).length := rfl
    have e4 : fnCount t p = ((t.zip p).filter (fun x => x.1 && !x.2)).length := rfl
    rw [e1, e2, e3, e4]
    omega
  · refine ⟨if 0 < tnCount t p + fpCount t p then
        (tnCount t p : ℚ) / ((tnCount t p : ℚ) + (fpCount t p : ℚ)) else 0,
      ?_, guard_div_nonneg _ _, guard_div_le_one _ _⟩
    simp [calcMetrics, h2]
  · have : (calcMetrics logFn name t p probs).sensitivity =
        if 0 < tpCount t p + fnCount t p then
          (tpCount t p : ℚ) / ((tpCount t p : ℚ) + (fnCount t p : ℚ)) else 0 := by
      simp [calcMetrics, h2]
    rw [this]
    exact guard_div_nonneg _ _
  · have : (calcMetrics logFn name t p probs).sensitivity =
        if 0 < tpCount t p + fnCount t p then
          (tpCount t p : ℚ) / ((tpCount t p : ℚ) + (fnCount t p : ℚ)) else 0 := by
      simp [calcMetrics, h2]
    rw [this]
    exact guard_div_le_one _ _

/-- C7 witness: a concrete 2 x 2 case of length 3. -/
theorem calcMetrics_counts_bounds_witness :
    (([true, false, true] : List Bool).length =
      ([true, true, false] : List Bool).length ∧
     twoByTwo [true, false, true] [true, true, false] = true) ∧
    tpCount [true, false, true] [true, true, false] +
      tnCount [true, false, true] [true, true, false] +
      fpCount [true, false, true] [true, true, false] +
      fnCount [true, false, true] [true, true, false] = 3 :=
  ⟨⟨rfl, rfl⟩,
   (calcMetrics_counts_bounds id "m" [true, false, true] [true, true, false]
      none rfl rfl).1⟩

theorem calcMetrics_rocAuc (logFn : ℚ → ℚ) (name : String) (t p : List Bool)
    (probs : Option (List ℚ)) :
    (calcMetrics logFn name t p probs).rocAuc = probs.map (rocAucScore t) := by
  by_cases h : twoByTwo t p <;> simp [calcMetrics, h]

theorem calcMetrics_logLoss (logFn : ℚ → ℚ) (name : String) (t p : List Bool)
    (probs : Option (List ℚ)) :
    (calcMetrics logFn name t p probs).logLoss =
      probs.map (logLossScore logFn t) := by
  by_cases h : twoByTwo t p <;> simp [calcMetrics, h]

/-- C2 counterexample: with any concrete run data, the SVM family has
probability estimates (its metric record carries a computed log-loss), yet
its log-loss entry in the persisted comparison table is the hardcoded
missing-value literal, refuting the claimed equivalence between a
missing-value entry and absent probability estimates. -/
theorem svm_logLoss_na_despite_probs :
    ((comparisonTable id [true, false]
        ⟨[true, false], [1, 0]⟩ ⟨[true, false], [1, 0]⟩
        ⟨[true, false], [1, 0]⟩ ⟨[true, false], [1, 0]⟩ 1 1 1 1).getD 1
      []).getD 8 Cell.err = Cell.na ∧
    (evalFamily id "Support Vector Machine" [true, false]
        ⟨[true, false], [1, 0]⟩).logLoss.isSome = true := by
  constructor
  · rfl
  · rw [evalFamily, calcMetrics_logLoss]
    rfl

/-- C2 amended: calculate_metrics computes ROC-AUC and log-loss exactly when
class-1 probability estimates are passed, reporting them as missing
otherwise, non-fatally; but in the persisted comparison table the log-loss
entry is the computed value only in the Logistic Regression column, while
the SVM, Decision Tree and KNN columns hardcode the missing-value literal
even though every family produces probability estimates. -/
theorem probMetrics_iff_and_table (logFn : ℚ → ℚ) (name : String)
    (t p : List Bool) (probs : Option (List ℚ)) (yT : List Bool)
    (lrO svmO treeO knnO : FamilyOutput) (cvL cvS cvT cvK : ℚ) :
    ((calcMetrics logFn name t p probs).rocAuc.isSome = probs.isSome) ∧
    ((calcMetrics logFn name t p probs).logLoss.isSome = probs.isSome) ∧
    (((comparisonTable logFn yT lrO svmO treeO knnO cvL cvS cvT cvK).getD 0
        []).getD 8 Cell.err =
      fmtCell (evalFamily logFn "Logistic Regression" yT lrO).logLoss) ∧
    ((evalFamily logFn "Logistic Regression" yT lrO).logLoss.isSome = true) ∧
    (((comparisonTable logFn yT lrO svmO treeO knnO cvL cvS cvT cvK).getD 1
        []).getD 8 Cell.err = Cell.na) ∧
    ((evalFamily logFn "Support Vector Machine" yT svmO).logLoss.isSome = true) ∧
    (((comparisonTable logFn yT lrO svmO treeO knnO cvL cvS cvT cvK).getD 2
        []).getD 8 Cell.err = Cell.na) ∧
    ((evalFamily logFn "Decision Tree" yT treeO).logLoss.isSome = true) ∧
    (((comparisonTable logFn yT lrO svmO treeO knnO cvL cvS cvT cvK).getD 3
        []).getD 8 Cell.err = Cell.na) ∧
    ((evalFamily logFn "K-Nearest Neighbors" yT knnO).logLoss.isSome = true) := by
  refine ⟨?_, ?_, rfl, ?_, rfl, ?_, rfl, ?_, rfl, ?_⟩
  · rw [calcMetrics_rocAuc]
    cases probs <;> rfl
  · rw [calcMetrics_logLoss]
    cases probs <;> rfl
  all_goals rw [evalFamily, calcMetrics_logLoss]; rfl

/-- C8: two runs of the pipeline with the same library primitives, the same
inputs and the same input order produce identical train and test partitions
and identical best-configuration selections for every model family, whatever
ambient entropy the two runs see, because every random_state is pinned to
the fixed seed 42 and the cross-validation scoring is deterministic given
that seed. -/
theorem pipeline_two_run_deterministic (lib : LibEnv) (a₁ a₂ : List Nat)
    (labelTab : Option (List Bool)) (featTab : Option (List (List ℚ))) :
    pipelineSelect ⟨lib, a₁⟩ labelTab featTab =
      pipelineSelect ⟨lib, a₂⟩ labelTab featTab := rfl

/-- C9: the reporter computes the best family by raw test accuracy and,
separately, the best family by cross-validated accuracy, and prints both
names distinctly; and on the concrete scenario of two families tying on test
accuracy while differing on cross-validated accuracy the two reported
winners name different families, both appearing in the output. -/
theorem reporter_two_winners (r : FamilySummary) (rs : List FamilySummary) :
    (∃ a b, bestByTest (r :: rs) = some a ∧ bestByCV (r :: rs) = some b ∧
      finalReport (r :: rs) = [a.famName, b.famName] ∧
      (∀ x ∈ r :: rs, x.testAcc ≤ a.testAcc) ∧
      (∀ x ∈ r :: rs, x.cvAcc ≤ b.cvAcc)) ∧
    (finalReport [⟨"Logistic Regression", 4/5, 7/10⟩, ⟨"SVM", 4/5, 9/10⟩] =
      ["Logistic Regression", "SVM"] ∧
     (⟨"Logistic Regression", 4/5, 7/10⟩ : FamilySummary).testAcc =
       (⟨"SVM", 4/5, 9/10⟩ : FamilySummary).testAcc ∧
     (⟨"Logistic Regression", 4/5, 7/10⟩ : FamilySummary).cvAcc ≠
       (⟨"SVM", 4/5, 9/10⟩ : FamilySummary).cvAcc ∧
     ("Logistic Regression" : String) ≠ "SVM") := by
  constructor
  · obtain ⟨a, l₁, l₂, ha, hamem, hadec, hal, hale⟩ :=
      selectBest_spec (fun x => x.testAcc) (r :: rs) (by simp)
    obtain ⟨b, m₁, m₂, hb, hbmem, hbdec, hbl, hble⟩ :=
      selectBest_spec (fun x => x.cvAcc) (r :: rs) (by simp)
    refine ⟨a, b, ha, hb, ?_, hale, hble⟩
    simp only [finalReport, bestByTest, bestByCV, ha, hb]
  · refine ⟨?_, rfl, by norm_num, by decide⟩
    simp only [finalReport, bestByTest, bestByCV, selectBest, runBest]
    norm_num

/-- C9 witness: the general part applied to a singleton family list. -/
theorem reporter_two_winners_witness :
    ∃ a b, bestByTest [(⟨"KNN", 1, 1⟩ : FamilySummary)] = some a ∧
      bestByCV [(⟨"KNN", 1, 1⟩ : FamilySummary)] = some b ∧
      finalReport [(⟨"KNN", 1, 1⟩ : FamilySummary)] = [a.famName, b.famName] :=
  let h := (reporter_two_winners ⟨"KNN", 1, 1⟩ []).1
  match h with
  | ⟨a, b, ha, hb, hrep, _, _⟩ => ⟨a, b, ha, hb, hrep⟩

theorem detailBlock_labels (m : Metrics) (cv : ℚ) (bp : String) :
    (detailBlock m cv bp).map Prod.fst =
      ["Accuracy", "Precision", "Recall", "F1-Score", "CV Accuracy",
       "Specificity", "Sensitivity"] ++
      (if truthy m.rocAuc then ["ROC AUC"] else []) ++ ["Best Params"] := by
  by_cases h : truthy m.rocAuc <;> simp [detailBlock, h]

/-- C10: in a detailed-results block the ROC AUC line appears exactly when
the stored roc_auc value is truthy (present and nonzero); in particular it
is omitted for a stored value of exactly zero and for an absent value, while
the accuracy, precision, recall, F1, CV accuracy, specificity, sensitivity
and best-params lines are all written unconditionally. -/
theorem detailBlock_roc_conditional (m : Metrics) (cv : ℚ) (bp : String) :
    (("ROC AUC" ∈ (detailBlock m cv bp).map Prod.fst) ↔
      (∃ q, m.rocAuc = some q ∧ q ≠ 0)) ∧
    (m.rocAuc = some 0 → "ROC AUC" ∉ (detailBlock m cv bp).map Prod.fst) ∧
    (∀ lbl ∈ ["Accuracy", "Precision", "Recall", "F1-Score", "CV Accuracy",
        "Specificity", "Sensitivity", "Best Params"],
      lbl ∈ (detailBlock m cv bp).map Prod.fst) := by
  have hl := detailBlock_labels m cv bp
  have hiff : ("ROC AUC" ∈ (detailBlock m cv bp).map Prod.fst) ↔
      (∃ q, m.rocAuc = some q ∧ q ≠ 0) := by
    rw [hl]
    cases hr : m.rocAuc with
    | none => simp [truthy]
    | some q =>
      by_cases hq : q = 0
      · subst hq
        simp [truthy]
      · simp [truthy, hq]
  refine ⟨hiff, ?_, ?_⟩
  · intro h0 hmem
    obtain ⟨q, hq, hne⟩ := hiff.mp hmem
    rw [h0, Option.some_inj] at hq
    exact hne hq.symm
  · intro lbl hlbl
    rw [hl]
    fin_cases hlbl <;> simp

/-- C10 witness: a record with a zero ROC AUC omits the line; the accuracy
line is present regardless. -/
theorem detailBlock_roc_conditional_witness :
    (("ROC AUC" ∈ (detailBlock ⟨"m", 1, 1, 1, 1, none, 1, some 0, none,
        none, none, none, none⟩ 1 "params").map Prod.fst) ↔
      (∃ q, (some (0 : ℚ)) = some q ∧ q ≠ 0)) ∧
    ("Accuracy" ∈ (detailBlock ⟨"m", 1, 1, 1, 1, none, 1, some 0, none,
        none, none, none, none⟩ 1 "params").map Prod.fst) := by
  have h := detailBlock_roc_conditional
    ⟨"m", 1, 1, 1, 1, none, 1, some 0, none, none, none, none, none⟩ 1 "params"
  exact ⟨h.1, h.2.2 "Accuracy" (by decide)⟩

end SpaceXML
